import Mathlib

/-!
# Titan statistics: property queries and operation-stats reports

A shallow embedding of `src/titan_stats.cc` (namespace `rocksdb::titandb`).

* Byte strings (`std::string`, `Slice`) are lists of characters.
* `uint64_t` values are natural numbers; where the code wraps, the model
  reduces modulo `2 ^ 64` explicitly.
* A call that can throw returns `Except Exn _`.
* Member functions take the object as an explicit argument and return its
  new state when they can change it.
-/

namespace Titan

/-! ## Strings and slices -/

/-- A `Slice` (pointer and length over bytes), as the list of its characters. -/
abbrev Slice := List Char

/-- The C library `isdigit`, in the "C" locale: true exactly on `0` .. `9`. -/
def isdigit (c : Char) : Bool := decide (48 ≤ c.toNat) && decide (c.toNat ≤ 57)

/-- The C++ `Slice::remove_suffix(n)`: drops the last `n` bytes. -/
def Slice.remove_suffix (s : Slice) (n : Nat) : Slice := s.take (s.length - n)

/-- The C++ `Slice::remove_prefix(n)`: drops the first `n` bytes. -/
def Slice.remove_prefix (s : Slice) (n : Nat) : Slice := s.drop n

/-- The `while` loop of `GetPropertyNameAndArg`, with `sfx_len` as its state.
The first argument bounds the number of iterations; `property.length`
iterations always suffice, since `sfx_len` grows by one per iteration and the
loop stops when it reaches `property.size()`. -/
def sfxLoop (property : Slice) : Nat → Nat → Nat
  | 0, sfx_len => sfx_len
  | fuel + 1, sfx_len =>
    if sfx_len < property.length ∧
        isdigit (property.getD (property.length - sfx_len - 1) ' ') = true then
      sfxLoop property fuel (sfx_len + 1)
    else sfx_len

/-- The C++ `GetPropertyNameAndArg` (titan_stats.cc:121): splits a property into its
name and its trailing run of digits. -/
def GetPropertyNameAndArg (property : Slice) : Slice × Slice :=
  let sfx_len := sfxLoop property property.length 0
  let name := Slice.remove_suffix property sfx_len
  let arg := Slice.remove_prefix property (property.length - sfx_len)
  (name, arg)

/-- The C++ `std::to_string(uint64_t)`: the decimal digits of the value, most
significant first, with no leading zero (a single `0` for zero). -/
def to_string (n : Nat) : List Char := Nat.toDigits 10 n

/-! ## Exceptions and integer conversions -/

/-- The exceptions `std::stoi` throws. -/
inductive Exn where
  | invalid_argument
  | out_of_range
  deriving DecidableEq, Repr

/-- Largest `int`. -/
def INT_MAX : Int := 2 ^ 31 - 1

/-- Smallest `int`. -/
def INT_MIN : Int := -(2 ^ 31)

/-- Conversion of an integer to `int` (32 bits, two's complement wrap). -/
def toInt32 (z : Int) : Int := (z + 2 ^ 31) % 2 ^ 32 - 2 ^ 31

/-- Conversion of an integer to `uint64_t` (reduction modulo `2 ^ 64`). -/
def toUInt64 (z : Int) : Nat := (z % 2 ^ 64).toNat

/-- The C library `isspace`, in the "C" locale. -/
def isspace (c : Char) : Bool :=
  decide (c.toNat = 32) || (decide (9 ≤ c.toNat) && decide (c.toNat ≤ 13))

/-- The digit loop of `strtol` in base 10: `acc = acc * 10 + digit`. -/
def digitsValue (ds : List Char) : Nat :=
  ds.foldl (fun acc c => acc * 10 + (c.toNat - 48)) 0

/-- The C++ `std::string::c_str()` read back as a C string: the bytes before the
first NUL. -/
def c_str (s : List Char) : List Char := s.takeWhile (fun c => c.toNat != 0)

/-- The optional sign in front of a number: whether it is a minus, how many
characters it takes, and the text after it. -/
def takeSign (rest : List Char) : Bool × Nat × List Char :=
  match rest with
  | [] => (false, 0, [])
  | c :: t =>
    if c = '-' then (true, 1, t)
    else if c = '+' then (false, 1, t)
    else (false, 0, c :: t)

/-- The C++ `std::stoi(str, &idx)` in base 10: skips leading white space, takes an
optional sign and then the longest run of digits. Throws `invalid_argument`
when there is no digit, `out_of_range` when the value is not an `int`.
Returns the value and `idx`, the number of characters consumed. -/
def stoi (str : List Char) : Except Exn (Int × Nat) :=
  let ws := str.takeWhile isspace
  let rest := str.dropWhile isspace
  let (neg, signLen, body) := takeSign rest
  let ds := body.takeWhile isdigit
  if ds = [] then Except.error Exn.invalid_argument
  else
    let v : Int := if neg then -(digitsValue ds : Int) else (digitsValue ds : Int)
    if v < INT_MIN ∨ INT_MAX < v then Except.error Exn.out_of_range
    else Except.ok (v, ws.length + signLen + ds.length)

/-- The C++ `ParseInt` of RocksDB's `util/string_util` (the library this file is built
on; the non-Cygwin branch): `std::stoi` on the text, then a binary multiplier
when the first unparsed character is `k`, `m` or `g` (the shift is taken
modulo `2 ^ 32`). -/
def ParseInt (value : List Char) : Except Exn Int :=
  match stoi (c_str value) with
  | Except.error e => Except.error e
  | Except.ok (num, endchar) =>
    if endchar < value.length then
      let c := value.getD endchar ' '
      if c = 'k' ∨ c = 'K' then Except.ok (toInt32 (num * 2 ^ 10))
      else if c = 'm' ∨ c = 'M' then Except.ok (toInt32 (num * 2 ^ 20))
      else if c = 'g' ∨ c = 'G' then Except.ok (toInt32 (num * 2 ^ 30))
      else Except.ok num
    else Except.ok num

/-! ## Data model -/

/-- The C++ `TitanInternalStats::StatsType`: the per-column-family counters this file
names. -/
inductive StatsType where
  | LIVE_BLOB_SIZE
  | NUM_LIVE_BLOB_FILE
  | NUM_OBSOLETE_BLOB_FILE
  | LIVE_BLOB_FILE_SIZE
  | OBSOLETE_BLOB_FILE_SIZE
  | NUM_DISCARDABLE_RATIO_LE0
  | NUM_DISCARDABLE_RATIO_LE20
  | NUM_DISCARDABLE_RATIO_LE50
  | NUM_DISCARDABLE_RATIO_LE80
  | NUM_DISCARDABLE_RATIO_LE100
  deriving DecidableEq, Repr

/-- The C++ `InternalOpType`: the maintenance operations, in the order of
`internal_op_names`. -/
inductive InternalOpType where
  | FLUSH
  | COMPACTION
  | GC
  deriving DecidableEq, Repr

/-- The C++ `InternalOpStatsType`: the fields of one operation-stats block that this
file names. -/
inductive InternalOpStatsType where
  | COUNT
  | BYTES_READ
  | BYTES_WRITTEN
  | LSM_BYTES_READ
  | LSM_BYTES_WRITTEN
  | FILE_BYTES_WRITTEN
  | IO_BYTES_READ
  | LOOKUP_IO_BYTES_READ
  | WRITEBACK_IO_BYTES_READ
  | IO_BYTES_WRITTEN
  | LOOKUP_IO_BYTES_WRITTEN
  | WRITEBACK_IO_BYTES_WRITTEN
  | INPUT_FILE_NUM
  | OUTPUT_FILE_NUM
  | GC_READ_LSM_MICROS
  | GC_UPDATE_LSM_MICROS
  deriving DecidableEq, Repr

/-- The blob-file-set collaborator, seen through the one call this file makes:
`NumBlobFilesAtLevel(int level)`, returning a count. -/
structure BlobStorage where
  NumBlobFilesAtLevel : Int → Int

/-- The C++ `InternalOpStats`: one block of `uint64_t` atomics, indexed by field. -/
abbrev InternalOpStats := InternalOpStatsType → Nat

/-- The C++ `TitanInternalStats`: the counters of one column family, its three
operation-stats blocks, and the blob storage it is wired to. -/
structure TitanInternalStats where
  stats_ : StatsType → Nat
  internal_op_stats_ : InternalOpType → InternalOpStats
  blob_storage_ : BlobStorage

/-! ## Property names and the dispatch table -/

/-- The namespace in front of every property name (titan_stats.cc:22). -/
def titandb_prefix : List Char := "rocksdb.titandb.".toList

/-- The bare property names (titan_stats.cc:24), followed by the constants of
`TitanDB::Properties` built from them (titan_stats.cc:42). -/
def num_blob_files_at_level_prefix : List Char := "num-blob-files-at-level".toList
def live_blob_size : List Char := "live-blob-size".toList
def num_live_blob_file : List Char := "num-live-blob-file".toList
def num_obsolete_blob_file : List Char := "num-obsolete-blob-file".toList
def live_blob_file_size : List Char := "live-blob-file-size".toList
def obsolete_blob_file_size : List Char := "obsolete-blob-file-size".toList
def num_discardable_ratio_le0_file : List Char :=
  "num-discardable-ratio-le0-file".toList
def num_discardable_ratio_le20_file : List Char :=
  "num-discardable-ratio-le20-file".toList
def num_discardable_ratio_le50_file : List Char :=
  "num-discardable-ratio-le50-file".toList
def num_discardable_ratio_le80_file : List Char :=
  "num-discardable-ratio-le80-file".toList
def num_discardable_ratio_le100_file : List Char :=
  "num-discardable-ratio-le100-file".toList

def kNumBlobFilesAtLevelPrefix : List Char :=
  titandb_prefix ++ num_blob_files_at_level_prefix
def kLiveBlobSize : List Char := titandb_prefix ++ live_blob_size
def kNumLiveBlobFile : List Char := titandb_prefix ++ num_live_blob_file
def kNumObsoleteBlobFile : List Char := titandb_prefix ++ num_obsolete_blob_file
def kLiveBlobFileSize : List Char := titandb_prefix ++ live_blob_file_size
def kObsoleteBlobFileSize : List Char := titandb_prefix ++ obsolete_blob_file_size
def kNumDiscardableRatioLE0File : List Char :=
  titandb_prefix ++ num_discardable_ratio_le0_file
def kNumDiscardableRatioLE20File : List Char :=
  titandb_prefix ++ num_discardable_ratio_le20_file
def kNumDiscardableRatioLE50File : List Char :=
  titandb_prefix ++ num_discardable_ratio_le50_file
def kNumDiscardableRatioLE80File : List Char :=
  titandb_prefix ++ num_discardable_ratio_le80_file
def kNumDiscardableRatioLE100File : List Char :=
  titandb_prefix ++ num_discardable_ratio_le100_file

/-- The C++ `TitanInternalStats::HandleStatsValue` (titan_stats.cc:154): loads the
counter slot `type`; the argument is ignored. -/
def HandleStatsValue (self : TitanInternalStats) (type : StatsType) (_arg : Slice) :
    Except Exn Nat :=
  Except.ok (self.stats_ type)

/-- The C++ `TitanInternalStats::HandleNumBlobFilesAtLevel` (titan_stats.cc:159):
parses the argument as an `int` level and asks the blob storage; the count is
returned as a `uint64_t`. -/
def HandleNumBlobFilesAtLevel (self : TitanInternalStats) (arg : Slice) :
    Except Exn Nat :=
  let s := arg
  match ParseInt s with
  | Except.error e => Except.error e
  | Except.ok level =>
    Except.ok (toUInt64 (self.blob_storage_.NumBlobFilesAtLevel level))

/-- The value type of `stats_type_string_map`. -/
abbrev Handler := TitanInternalStats → Slice → Except Exn Nat

/-- The C++ `TitanInternalStats::stats_type_string_map` (titan_stats.cc:65), as the
list of its initialisers. -/
def stats_type_string_map : List (List Char × Handler) :=
  [ (kNumBlobFilesAtLevelPrefix, HandleNumBlobFilesAtLevel),
    (kLiveBlobSize, fun self arg => HandleStatsValue self StatsType.LIVE_BLOB_SIZE arg),
    (kNumLiveBlobFile,
      fun self arg => HandleStatsValue self StatsType.NUM_LIVE_BLOB_FILE arg),
    (kNumObsoleteBlobFile,
      fun self arg => HandleStatsValue self StatsType.NUM_OBSOLETE_BLOB_FILE arg),
    (kLiveBlobFileSize,
      fun self arg => HandleStatsValue self StatsType.LIVE_BLOB_FILE_SIZE arg),
    (kObsoleteBlobFileSize,
      fun self arg => HandleStatsValue self StatsType.OBSOLETE_BLOB_FILE_SIZE arg),
    (kNumDiscardableRatioLE0File,
      fun self arg => HandleStatsValue self StatsType.NUM_DISCARDABLE_RATIO_LE0 arg),
    (kNumDiscardableRatioLE20File,
      fun self arg => HandleStatsValue self StatsType.NUM_DISCARDABLE_RATIO_LE20 arg),
    (kNumDiscardableRatioLE50File,
      fun self arg => HandleStatsValue self StatsType.NUM_DISCARDABLE_RATIO_LE50 arg),
    (kNumDiscardableRatioLE80File,
      fun self arg => HandleStatsValue self StatsType.NUM_DISCARDABLE_RATIO_LE80 arg),
    (kNumDiscardableRatioLE100File,
      fun self arg => HandleStatsValue self StatsType.NUM_DISCARDABLE_RATIO_LE100 arg) ]

/-- The C++ `std::unordered_map::find`: the value stored under a key equal to `key`,
or `none` for `end()`. -/
def find (m : List (List Char × Handler)) (key : List Char) : Option Handler :=
  match m with
  | [] => none
  | (k, h) :: rest => if k = key then some h else find rest key

/-- The C++ `TitanInternalStats::GetIntProperty` (titan_stats.cc:133). The second
argument is what `*value` holds before the call; the result is the returned
flag and what `*value` holds after it. -/
def GetIntProperty (self : TitanInternalStats) (property : Slice) (value : Nat) :
    Except Exn (Bool × Nat) :=
  let ppt := GetPropertyNameAndArg property
  match find stats_type_string_map ppt.1 with
  | some p =>
    match p self ppt.2 with
    | Except.error e => Except.error e
    | Except.ok v => Except.ok (true, v)
  | none => Except.ok (false, value)

/-- The C++ `TitanInternalStats::GetStringProperty` (titan_stats.cc:144). The second
argument is what `*value` holds before the call. The local `int_value` starts
indeterminate; it is only read after `GetIntProperty` has written it. -/
def GetStringProperty (self : TitanInternalStats) (property : Slice)
    (value : List Char) : Except Exn (Bool × List Char) :=
  let int_value := 0
  match GetIntProperty self property int_value with
  | Except.error e => Except.error e
  | Except.ok (true, int_value) => Except.ok (true, to_string int_value)
  | Except.ok (false, _) => Except.ok (false, value)

/-! ## Operation-stats reports -/

/-- One argument handed to a `printf`-style call. `dbl num den` is the
`double` obtained by dividing the counter value `num` by the constant `den`. -/
inductive Arg where
  | str (s : List Char)
  | u64 (v : Nat)
  | int (v : Int)
  | dbl (num : Nat) (den : Nat)
  deriving DecidableEq, Repr

/-- One formatted line: the format string and the arguments that follow it. -/
structure LogEntry where
  format : List Char
  args : List Arg
  deriving DecidableEq, Repr

/-- A `LogBuffer`, as the lines added to it so far. The `std::string` the
string overload appends to is modelled the same way, one entry per `append`. -/
abbrev LogBuffer := List LogEntry

/-- The C++ `LogToBuffer(log_buffer, format, ...)`: adds one line to the buffer. -/
def LogToBuffer (log_buffer : LogBuffer) (format : List Char) (args : List Arg) :
    LogBuffer :=
  log_buffer ++ [{ format := format, args := args }]

/-- The C++ `constexpr double GB = 1.0 * 1024 * 1024 * 1024`. -/
def GB : Nat := 1024 * 1024 * 1024

/-- The C++ `constexpr double SECOND = 1.0 * 1000000`. -/
def SECOND : Nat := 1000000

/-- The C++ `TitanInternalStats::internal_op_names` (titan_stats.cc:111). -/
def internal_op_names : InternalOpType → List Char
  | InternalOpType.FLUSH => "Flush     ".toList
  | InternalOpType.COMPACTION => "Compaction".toList
  | InternalOpType.GC => "GC        ".toList

/-- The values `op` takes in `for (op = 0; op < INTERNAL_OP_ENUM_MAX; op++)`. -/
def allOps : List InternalOpType :=
  [InternalOpType.FLUSH, InternalOpType.COMPACTION, InternalOpType.GC]

/-- Modelled from the spec: `GetAndResetStats` is defined in titan_stats.h,
which is not among the sources; the spec gives it as "atomic exchange with
zero, returns prior value". The result is the value read and the block after
the exchange. -/
def GetAndResetStats (stats : InternalOpStats) (type : InternalOpStatsType) :
    Nat × InternalOpStats :=
  (stats type, Function.update stats type 0)

/-- Modelled from the spec: `DumpStats` is defined in titan_stats.h, which is
not among the sources; the spec gives it as "pure read, no mutation". The
result is the value read and the block after the read. -/
def DumpStats (stats : InternalOpStats) (type : InternalOpStatsType) :
    Nat × InternalOpStats :=
  (stats type, stats)

/-- Modelled from the spec: `AddStats` is defined in titan_stats.h, which is
not among the sources; the spec gives the accumulation primitives as "atomic
fetch-and-add" on an unsigned 64-bit field. -/
def AddStats (stats : InternalOpStats) (type : InternalOpStatsType) (value : Nat) :
    InternalOpStats :=
  Function.update stats type ((stats type + value) % 2 ^ 64)

/-- Modelled from the spec: the constructor of `TitanInternalStats` is defined
in titan_stats.h, which is not among the sources; the spec gives a new entry
as "wired to the given collaborator", its counters not yet touched by any
writer (all zero). -/
def make_shared (blob_storage : BlobStorage) : TitanInternalStats :=
  { stats_ := fun _ => 0
    internal_op_stats_ := fun _ _ => 0
    blob_storage_ := blob_storage }

/-- The header line of the consume report (titan_stats.cc:169). -/
def consumeHeader : List Char :=
  ("OP           COUNT READ(GB)  WRITE(GB) IO_READ(GB) IO_WRITE(GB) " ++
   " FILE_IN FILE_OUT GC_READ(s) GC_UPDATE(s)").toList

/-- The rule under the header of the consume report (titan_stats.cc:172). -/
def consumeRule : List Char :=
  ("----------------------------------------------------------------" ++
   "-----------------").toList

/-- The row format of the consume report (titan_stats.cc:178). -/
def consumeFormat : List Char :=
  "%s %5d %10.1f %10.1f  %10.1f   %10.1f %8d %8d %10.1f %10.1f %10.1f".toList

/-- The body of the loop of `DumpAndResetInternalOpStats` for one `op`: nine
exchanges on the block of `op`, then one line. C++ leaves the order in which
the arguments are evaluated open; the nine fields are distinct, so every order
reads the same values. -/
def dumpAndResetRow (acc : TitanInternalStats × LogBuffer) (op : InternalOpType) :
    TitanInternalStats × LogBuffer :=
  let self := acc.1
  let log_buffer := acc.2
  let b := self.internal_op_stats_ op
  let (count, b) := GetAndResetStats b InternalOpStatsType.COUNT
  let (bytes_read, b) := GetAndResetStats b InternalOpStatsType.BYTES_READ
  let (bytes_written, b) := GetAndResetStats b InternalOpStatsType.BYTES_WRITTEN
  let (io_bytes_read, b) := GetAndResetStats b InternalOpStatsType.IO_BYTES_READ
  let (io_bytes_written, b) := GetAndResetStats b InternalOpStatsType.IO_BYTES_WRITTEN
  let (input_file_num, b) := GetAndResetStats b InternalOpStatsType.INPUT_FILE_NUM
  let (output_file_num, b) := GetAndResetStats b InternalOpStatsType.OUTPUT_FILE_NUM
  let (gc_read_lsm_micros, b) :=
    GetAndResetStats b InternalOpStatsType.GC_READ_LSM_MICROS
  let (gc_update_lsm_micros, b) :=
    GetAndResetStats b InternalOpStatsType.GC_UPDATE_LSM_MICROS
  ({ self with internal_op_stats_ := Function.update self.internal_op_stats_ op b },
   LogToBuffer log_buffer consumeFormat
     [ Arg.str (internal_op_names op),
       Arg.u64 count,
       Arg.dbl bytes_read GB,
       Arg.dbl bytes_written GB,
       Arg.dbl io_bytes_read GB,
       Arg.dbl io_bytes_written GB,
       Arg.u64 input_file_num,
       Arg.u64 output_file_num,
       Arg.dbl gc_read_lsm_micros SECOND,
       Arg.dbl gc_update_lsm_micros SECOND ])

/-- The C++ `TitanInternalStats::DumpAndResetInternalOpStats` (titan_stats.cc:165):
the consume report. Returns the object and the log buffer after the call. -/
def DumpAndResetInternalOpStats (self : TitanInternalStats) (log_buffer : LogBuffer) :
    TitanInternalStats × LogBuffer :=
  let log_buffer := LogToBuffer log_buffer consumeHeader []
  let log_buffer := LogToBuffer log_buffer consumeRule []
  allOps.foldl dumpAndResetRow (self, log_buffer)

/-- The header line of the peek report (titan_stats.cc:211). -/
def peekHeader : List Char :=
  ("OP           COUNT READ(GB)  LSM_READ(GB)  WRITE(GB)  LSM_WRITE(GB)  " ++
   "FILE_WRITE(GB)  IO_READ(GB)  LOOKUP_IO_READ(GB)  WRITEBACK_IO_READ(GB)  " ++
   "IO_WRITE(GB)  LOOKUP_IO_WRITE(GB)  WRITEBACK_IO_WRITE(GB)  FILE_IN " ++
   "FILE_OUT GC_READ(s) GC_UPDATE(s)").toList

/-- The rule under the header of the peek report, log-buffer overload
(titan_stats.cc:216). -/
def peekRule : List Char :=
  ("----------------------------------------------------------------" ++
   "----------------------------------------------------------------" ++
   "----------------------------------------------------------------" ++
   "-----------------").toList

/-- The row format of the peek report, log-buffer overload
(titan_stats.cc:224). -/
def peekFormat : List Char :=
  ("%s %5d %10.1f  %10.1f  %10.1f  %10.1f  %10.1f  %10.1f  %10.1f  %10.1f " ++
   " %10.1f  %10.1f  %10.1f %10d %10d %10.1f %10.1f").toList

/-- The rule under the header of the peek report, string overload
(titan_stats.cc:292). -/
def peekRuleString : List Char :=
  ("-------------------------------------------------------------------" ++
   "-------------------------------------------------------------------" ++
   "-------------------------------------------------------------------" ++
   "-------------------------------------------------\n").toList

/-- The row format of the peek report, string overload (titan_stats.cc:301). -/
def peekFormatString : List Char :=
  ("%s %5d %10.1f  %10.1f  %10.1f  %10.1f  %15.1f  %15.1f  %19.1f  %16.1f " ++
   " %15.1f  %19.1f  %16.1f %10d %10d %10.1f %10.1f\n").toList

/-- The sixteen reads of one row of the peek report, in the order of the
arguments, and the arguments they give. Both overloads share them. -/
def dumpRowArgs (op : InternalOpType) (b : InternalOpStats) :
    List Arg × InternalOpStats :=
  let (count, b) := DumpStats b InternalOpStatsType.COUNT
  let (bytes_read, b) := DumpStats b InternalOpStatsType.BYTES_READ
  let (lsm_bytes_read, b) := DumpStats b InternalOpStatsType.LSM_BYTES_READ
  let (bytes_written, b) := DumpStats b InternalOpStatsType.BYTES_WRITTEN
  let (lsm_bytes_written, b) := DumpStats b InternalOpStatsType.LSM_BYTES_WRITTEN
  let (file_bytes_written, b) := DumpStats b InternalOpStatsType.FILE_BYTES_WRITTEN
  let (io_bytes_read, b) := DumpStats b InternalOpStatsType.IO_BYTES_READ
  let (lookup_io_bytes_read, b) := DumpStats b InternalOpStatsType.LOOKUP_IO_BYTES_READ
  let (writeback_io_bytes_read, b) :=
    DumpStats b InternalOpStatsType.WRITEBACK_IO_BYTES_READ
  let (io_bytes_written, b) := DumpStats b InternalOpStatsType.IO_BYTES_WRITTEN
  let (lookup_io_bytes_written, b) :=
    DumpStats b InternalOpStatsType.LOOKUP_IO_BYTES_WRITTEN
  let (writeback_io_bytes_written, b) :=
    DumpStats b InternalOpStatsType.WRITEBACK_IO_BYTES_WRITTEN
  let (input_file_num, b) := DumpStats b InternalOpStatsType.INPUT_FILE_NUM
  let (output_file_num, b) := DumpStats b InternalOpStatsType.OUTPUT_FILE_NUM
  let (gc_read_lsm_micros, b) := DumpStats b InternalOpStatsType.GC_READ_LSM_MICROS
  let (gc_update_lsm_micros, b) := DumpStats b InternalOpStatsType.GC_UPDATE_LSM_MICROS
  ([ Arg.str (internal_op_names op),
     Arg.int (toInt32 count),
     Arg.dbl bytes_read GB,
     Arg.dbl lsm_bytes_read GB,
     Arg.dbl bytes_written GB,
     Arg.dbl lsm_bytes_written GB,
     Arg.dbl file_bytes_written GB,
     Arg.dbl io_bytes_read GB,
     Arg.dbl lookup_io_bytes_read GB,
     Arg.dbl writeback_io_bytes_read GB,
     Arg.dbl io_bytes_written GB,
     Arg.dbl lookup_io_bytes_written GB,
     Arg.dbl writeback_io_bytes_written GB,
     Arg.int (toInt32 input_file_num),
     Arg.int (toInt32 output_file_num),
     Arg.dbl gc_read_lsm_micros SECOND,
     Arg.dbl gc_update_lsm_micros SECOND ], b)

/-- The body of the loop of a peek report for one `op`, with the row format
of the overload. -/
def dumpRow (format : List Char) (acc : TitanInternalStats × LogBuffer)
    (op : InternalOpType) : TitanInternalStats × LogBuffer :=
  let self := acc.1
  let (args, b) := dumpRowArgs op (self.internal_op_stats_ op)
  ({ self with internal_op_stats_ := Function.update self.internal_op_stats_ op b },
   LogToBuffer acc.2 format args)

/-- The C++ `TitanInternalStats::DumpInternalOpStats(LogBuffer*)` (titan_stats.cc:206):
the peek report into a log buffer. -/
def DumpInternalOpStats (self : TitanInternalStats) (log_buffer : LogBuffer) :
    TitanInternalStats × LogBuffer :=
  let log_buffer := LogToBuffer log_buffer peekHeader []
  let log_buffer := LogToBuffer log_buffer peekRule []
  allOps.foldl (dumpRow peekFormat) (self, log_buffer)

/-- The C++ `TitanInternalStats::DumpInternalOpStats(std::string*)`
(titan_stats.cc:280): the peek report appended to a string, one `snprintf`
and `append` per line. -/
def DumpInternalOpStatsString (self : TitanInternalStats) (value : LogBuffer) :
    TitanInternalStats × LogBuffer :=
  let value := LogToBuffer value (peekHeader ++ ['\n']) []
  let value := LogToBuffer value peekRuleString []
  allOps.foldl (dumpRow peekFormatString) (self, value)

/-! ## The registry of column families -/

/-- The C++ `TitanStats`: the map `internal_stats_` from column family id to its
`TitanInternalStats`. -/
structure TitanStats where
  internal_stats_ : Nat → Option TitanInternalStats

/-- The C++ `TitanStats::InitializeCF` (titan_stats.cc:390): assigns a newly made
entry to `internal_stats_[cf_id]`. The function returns `void`. -/
def InitializeCF (self : TitanStats) (cf_id : Nat) (blob_storage : BlobStorage) :
    TitanStats :=
  { self with
    internal_stats_ :=
      Function.update self.internal_stats_ cf_id (some (make_shared blob_storage)) }

/-! ## Reading a report -/

/-- The position of an operation type's row in a report that starts with the
header and the rule. -/
def rowIndex : InternalOpType → Nat
  | InternalOpType.FLUSH => 2
  | InternalOpType.COMPACTION => 3
  | InternalOpType.GC => 4

/-- The integer an argument carries, before any scaling. -/
def Arg.raw : Arg → Option Int
  | Arg.str _ => none
  | Arg.u64 v => some v
  | Arg.int v => some v
  | Arg.dbl num _ => some num

/-- The number an argument stands for: the counter value, divided by the
scale for a `double` column. -/
def Arg.shown : Arg → Option ℚ
  | Arg.str _ => none
  | Arg.u64 v => some v
  | Arg.int v => some v
  | Arg.dbl num den => some ((num : ℚ) / (den : ℚ))

/-- The fields the consume report reads, in the order of its columns. -/
def consumeFields : List InternalOpStatsType :=
  [ InternalOpStatsType.COUNT, InternalOpStatsType.BYTES_READ,
    InternalOpStatsType.BYTES_WRITTEN, InternalOpStatsType.IO_BYTES_READ,
    InternalOpStatsType.IO_BYTES_WRITTEN, InternalOpStatsType.INPUT_FILE_NUM,
    InternalOpStatsType.OUTPUT_FILE_NUM, InternalOpStatsType.GC_READ_LSM_MICROS,
    InternalOpStatsType.GC_UPDATE_LSM_MICROS ]

/-- The argument of column `col` (0 is the operation name) in the row of
`op` of a report. -/
def cell (report : LogBuffer) (op : InternalOpType) (col : Nat) : Option Arg :=
  match report.get? (rowIndex op) with
  | none => none
  | some row => row.args.get? col

/-- The value the consume report read for `field` of `op`: the counter value
behind the field's column. -/
def consumeRead (report : LogBuffer) (op : InternalOpType) (field : InternalOpStatsType) :
    Option Int :=
  match consumeFields.indexOf? field with
  | none => none
  | some i =>
    match cell report op (i + 1) with
    | none => none
    | some a => a.raw

/-- The number a report shows in column `col` of the row of `op`. -/
def shownAt (report : LogBuffer) (op : InternalOpType) (col : Nat) : Option ℚ :=
  match cell report op col with
  | none => none
  | some a => a.shown

/-- The names registered in the dispatch table. -/
def registeredNames : List (List Char) := stats_type_string_map.map Prod.fst

/-- The counter-backed canonical names, each with the slot it is said to read. -/
def counterBackedNames : List (List Char × StatsType) :=
  [ ("rocksdb.titandb.live-blob-size".toList, StatsType.LIVE_BLOB_SIZE),
    ("rocksdb.titandb.num-live-blob-file".toList, StatsType.NUM_LIVE_BLOB_FILE),
    ("rocksdb.titandb.num-obsolete-blob-file".toList, StatsType.NUM_OBSOLETE_BLOB_FILE),
    ("rocksdb.titandb.live-blob-file-size".toList, StatsType.LIVE_BLOB_FILE_SIZE),
    ("rocksdb.titandb.obsolete-blob-file-size".toList,
      StatsType.OBSOLETE_BLOB_FILE_SIZE),
    ("rocksdb.titandb.num-discardable-ratio-le0-file".toList,
      StatsType.NUM_DISCARDABLE_RATIO_LE0),
    ("rocksdb.titandb.num-discardable-ratio-le20-file".toList,
      StatsType.NUM_DISCARDABLE_RATIO_LE20),
    ("rocksdb.titandb.num-discardable-ratio-le50-file".toList,
      StatsType.NUM_DISCARDABLE_RATIO_LE50),
    ("rocksdb.titandb.num-discardable-ratio-le80-file".toList,
      StatsType.NUM_DISCARDABLE_RATIO_LE80),
    ("rocksdb.titandb.num-discardable-ratio-le100-file".toList,
      StatsType.NUM_DISCARDABLE_RATIO_LE100) ]

/-! ## Format strings -/

/-- The characters that end a `printf` conversion specification. -/
def isConversionChar (c : Char) : Bool :=
  decide (c ∈ ['d', 'i', 'o', 'u', 'x', 'X', 'e', 'E', 'f', 'F', 'g', 'G', 'a', 'A',
    'c', 's', 'p', 'n'])

/-- The scan of a `printf` format. The flag tells whether the scan is inside a
conversion specification (after its `%`, among flags, width and precision).
Each specification that ends in a conversion character takes one argument;
`%%` takes none. No format of this file uses a `*` width. -/
def countConversionsFrom : Bool → List Char → Nat
  | _, [] => 0
  | false, c :: t =>
    if c = '%' then countConversionsFrom true t else countConversionsFrom false t
  | true, c :: t =>
    if c = '%' then countConversionsFrom false t
    else if isConversionChar c = true then 1 + countConversionsFrom false t
    else countConversionsFrom true t

/-- The number of arguments a `printf` format reads. -/
def countConversions (format : List Char) : Nat := countConversionsFrom false format

/-- The words of a line: its maximal runs of characters other than a blank.
The first argument is the word being read. -/
def wordsFrom : List Char → List Char → List (List Char)
  | cur, [] => if cur = [] then [] else [cur]
  | cur, c :: t =>
    if c = ' ' then
      (if cur = [] then wordsFrom [] t else cur :: wordsFrom [] t)
    else wordsFrom (cur ++ [c]) t

/-- The column titles of a header line. -/
def columnTitles (header : List Char) : List (List Char) := wordsFrom [] header

/-- The titles of the numeric columns: all but the first column, `OP`. -/
def numericTitles (header : List Char) : List (List Char) := (columnTitles header).tail

/-- Whether an argument is a number (not the operation name). -/
def Arg.isNumeric : Arg → Bool
  | Arg.str _ => false
  | _ => true

/-- The numeric values handed to a line. -/
def numericArgs (row : LogEntry) : List Arg := row.args.filter Arg.isNumeric

/-! ## Sample states -/

/-- A blob storage with 2 files at level 0, 5 at level 1 and none elsewhere. -/
def mockBlobStorage : BlobStorage :=
  { NumBlobFilesAtLevel := fun level =>
      if level = 0 then 2 else if level = 1 then 5 else 0 }

/-- A blob storage with 9 files at every level. -/
def otherBlobStorage : BlobStorage :=
  { NumBlobFilesAtLevel := fun _ => 9 }

/-- An entry whose ten counters hold ten different values. -/
def sampleStats : TitanInternalStats :=
  { stats_ := fun t =>
      match t with
      | StatsType.LIVE_BLOB_SIZE => 4096
      | StatsType.NUM_LIVE_BLOB_FILE => 11
      | StatsType.NUM_OBSOLETE_BLOB_FILE => 12
      | StatsType.LIVE_BLOB_FILE_SIZE => 8192
      | StatsType.OBSOLETE_BLOB_FILE_SIZE => 1024
      | StatsType.NUM_DISCARDABLE_RATIO_LE0 => 1
      | StatsType.NUM_DISCARDABLE_RATIO_LE20 => 20
      | StatsType.NUM_DISCARDABLE_RATIO_LE50 => 50
      | StatsType.NUM_DISCARDABLE_RATIO_LE80 => 80
      | StatsType.NUM_DISCARDABLE_RATIO_LE100 => 2 ^ 64 - 1
    internal_op_stats_ := fun op f =>
      match op, f with
      | InternalOpType.GC, InternalOpStatsType.GC_READ_LSM_MICROS => 1500000
      | InternalOpType.GC, InternalOpStatsType.LSM_BYTES_READ => 77
      | _, InternalOpStatsType.COUNT => 6
      | _, _ => 0
    blob_storage_ := mockBlobStorage }

/-- The state after recording `count = 3` and `bytesRead = 2 * 1024 ^ 3` for
Flush on a new entry. -/
def flushRecorded : TitanInternalStats :=
  let s := make_shared mockBlobStorage
  { s with
    internal_op_stats_ :=
      Function.update s.internal_op_stats_ InternalOpType.FLUSH
        (AddStats
          (AddStats (s.internal_op_stats_ InternalOpType.FLUSH)
            InternalOpStatsType.COUNT 3)
          InternalOpStatsType.BYTES_READ (2 * 1024 ^ 3)) }

/-- A registry that holds `sampleStats` for column family 1 and nothing else. -/
def sampleRegistry : TitanStats :=
  { internal_stats_ := fun cf_id => if cf_id = 1 then some sampleStats else none }

/-! ## The property key parser -/

/-- The loop keeps its invariant and, given enough iterations, stops only when
its condition fails. -/
theorem sfxLoop_spec (p : Slice) :
    ∀ (fuel k : Nat), k ≤ p.length → p.length - k ≤ fuel →
      (∀ c ∈ p.drop (p.length - k), isdigit c = true) →
      k ≤ sfxLoop p fuel k ∧ sfxLoop p fuel k ≤ p.length ∧
      (∀ c ∈ p.drop (p.length - sfxLoop p fuel k), isdigit c = true) ∧
      (sfxLoop p fuel k = p.length ∨
        isdigit (p.getD (p.length - sfxLoop p fuel k - 1) ' ') = false) := by
  intro fuel
  induction fuel with
  | zero =>
    intro k hk hf hd
    have hkn : k = p.length := by omega
    simp only [sfxLoop]
    exact ⟨le_refl _, hk, hd, Or.inl hkn⟩
  | succ fuel ih =>
    intro k hk hf hd
    simp only [sfxLoop]
    split
    · rename_i hc
      obtain ⟨hlt, hdig⟩ := hc
      have hidx : p.length - k - 1 < p.length := by omega
      have hdrop : p.drop (p.length - (k + 1)) =
          p.getD (p.length - k - 1) ' ' :: p.drop (p.length - k) := by
        have h1 : p.length - (k + 1) = p.length - k - 1 := by omega
        rw [h1, List.drop_eq_getElem_cons hidx]
        have h2 : p.length - k - 1 + 1 = p.length - k := by omega
        rw [h2, List.getD_eq_getElem p ' ' hidx]
      have := ih (k + 1) hlt (by omega) (by
        intro c hc
        rw [hdrop] at hc
        rcases List.mem_cons.mp hc with h | h
        · rw [h]; exact hdig
        · exact hd c h)
      exact ⟨by omega, this.2.1, this.2.2.1, this.2.2.2⟩
    · rename_i hc
      refine ⟨le_refl _, hk, hd, ?_⟩
      by_cases hlt : k < p.length
      · right
        have : ¬ isdigit (p.getD (p.length - k - 1) ' ') = true := fun h => hc ⟨hlt, h⟩
        simpa using this
      · left; omega



/-- On a name that is empty or ends in a non-digit, followed by digits only,
the loop counts exactly the digits. -/
theorem sfxLoop_append (name arg : Slice)
    (hname : name = [] ∨ ∃ c, name.getLast? = some c ∧ isdigit c = false)
    (harg : ∀ c ∈ arg, isdigit c = true) :
    sfxLoop (name ++ arg) (name ++ arg).length 0 = arg.length := by
  obtain ⟨_, hle, hd, hstop⟩ := sfxLoop_spec (name ++ arg) (name ++ arg).length 0
    (Nat.zero_le _) (by omega) (by simp)
  generalize sfxLoop (name ++ arg) (name ++ arg).length 0 = r at hle hd hstop
  have hn : (name ++ arg).length = name.length + arg.length := List.length_append _ _
  rcases Nat.lt_trichotomy r arg.length with hlt | heq | hgt
  · exfalso
    rcases hstop with h | h
    · omega
    · have hi : name.length ≤ (name ++ arg).length - r - 1 := by omega
      have hj : (name ++ arg).length - r - 1 - name.length < arg.length := by omega
      rw [List.getD_eq_getElem?_getD, List.getElem?_append_right hi,
        List.getElem?_eq_getElem hj] at h
      have := harg _ (List.getElem_mem hj)
      simp only [Option.getD_some] at h
      rw [this] at h
      exact Bool.noConfusion h
  · exact heq
  · exfalso
    rcases hname with h | ⟨c, hc, hnd⟩
    · subst h
      simp only [List.length_nil] at hn
      omega
    · have hpos : 0 < name.length := by omega
      have hget : (name ++ arg)[name.length - 1]? = some c := by
        rw [List.getElem?_append_left (by omega), ← List.getLast?_eq_getElem?]
        exact hc
      have hmem : c ∈ (name ++ arg).drop ((name ++ arg).length - r) := by
        have hk : (name ++ arg).length - r +
            (name.length - 1 - ((name ++ arg).length - r)) = name.length - 1 := by omega
        have : ((name ++ arg).drop ((name ++ arg).length - r))[
            name.length - 1 - ((name ++ arg).length - r)]? = some c := by
          rw [List.getElem?_drop, hk]
          exact hget
        exact List.getElem?_mem this
      have := hd c hmem
      rw [hnd] at this
      exact Bool.noConfusion this

/-- The split of a name that is empty or ends in a non-digit, followed by
digits only, gives back the two parts. -/
theorem GetPropertyNameAndArg_append (name arg : Slice)
    (hname : name = [] ∨ ∃ c, name.getLast? = some c ∧ isdigit c = false)
    (harg : ∀ c ∈ arg, isdigit c = true) :
    GetPropertyNameAndArg (name ++ arg) = (name, arg) := by
  have hs := sfxLoop_append name arg hname harg
  have hn : (name ++ arg).length = name.length + arg.length := List.length_append _ _
  simp only [GetPropertyNameAndArg, Slice.remove_suffix, Slice.remove_prefix, hs]
  have h1 : (name ++ arg).length - arg.length = name.length := by omega
  rw [h1, List.take_left, List.drop_left]

/-- Claim C1. For every query string `q`, `GetPropertyNameAndArg q` returns a
name and an argument whose concatenation is `q`; the argument holds only
decimal digits, and the name is empty or ends in a character that is not a
digit. `num-blob-files-at-level3` splits into `num-blob-files-at-level` and
`3`, and `live-blob-size` into itself and the empty argument. -/
theorem C1_GetPropertyNameAndArg_split :
    (∀ q : Slice,
      (GetPropertyNameAndArg q).1 ++ (GetPropertyNameAndArg q).2 = q ∧
      (∀ c ∈ (GetPropertyNameAndArg q).2, isdigit c = true) ∧
      ((GetPropertyNameAndArg q).1 = [] ∨
        ∃ c, (GetPropertyNameAndArg q).1.getLast? = some c ∧ isdigit c = false)) ∧
    GetPropertyNameAndArg "num-blob-files-at-level3".toList =
      ("num-blob-files-at-level".toList, "3".toList) ∧
    GetPropertyNameAndArg "live-blob-size".toList =
      ("live-blob-size".toList, "".toList) := by
  refine ⟨?_, by decide, by decide⟩
  intro q
  obtain ⟨_, hle, hd, hstop⟩ := sfxLoop_spec q q.length 0
    (Nat.zero_le _) (by omega) (by simp)
  simp only [GetPropertyNameAndArg, Slice.remove_suffix, Slice.remove_prefix]
  generalize sfxLoop q q.length 0 = r at hle hd hstop
  refine ⟨List.take_append_drop _ _, hd, ?_⟩
  rcases hstop with h | h
  · left
    rw [h, Nat.sub_self, List.take_zero]
  · by_cases hr : r = q.length
    · left
      rw [hr, Nat.sub_self, List.take_zero]
    · right
      have hi : q.length - r - 1 < q.length := by omega
      refine ⟨q[q.length - r - 1], ?_, ?_⟩
      · rw [List.getLast?_eq_getElem?, List.length_take,
          Nat.min_eq_left (Nat.sub_le _ _),
          List.getElem?_take_of_lt (by omega), List.getElem?_eq_getElem hi]
      · rw [List.getD_eq_getElem?_getD, List.getElem?_eq_getElem hi] at h
        simpa using h

/-! ## Decimal rendering and parsing -/

/-- A decimal digit character is a digit and carries its value. -/
theorem digitChar_spec : ∀ d, d < 10 →
    isdigit (Nat.digitChar d) = true ∧ (Nat.digitChar d).toNat - 48 = d := by
  decide

/-- The digit loop of `strtol`, started from any accumulator. -/
theorem foldl_digits (ds : List Char) : ∀ a : Nat,
    ds.foldl (fun acc c => acc * 10 + (c.toNat - 48)) a =
      a * 10 ^ ds.length + digitsValue ds := by
  induction ds with
  | nil => intro a; simp [digitsValue]
  | cons c t ih =>
    intro a
    simp only [digitsValue, List.foldl_cons, List.length_cons] at ih ⊢
    rw [ih (a * 10 + (c.toNat - 48)), ih (0 * 10 + (c.toNat - 48))]
    ring

/-- The value of a digit string, by its first digit. -/
theorem digitsValue_cons (c : Char) (t : List Char) :
    digitsValue (c :: t) = (c.toNat - 48) * 10 ^ t.length + digitsValue t := by
  have := foldl_digits t (0 * 10 + (c.toNat - 48))
  simp only [digitsValue, List.foldl_cons] at this ⊢
  rw [this]
  ring

/-- The digit generator with enough fuel: only digits, and the right value. -/
theorem toDigitsCore_spec : ∀ (fuel n : Nat) (acc : List Char), n < fuel →
    (∀ c ∈ acc, isdigit c = true) →
    (∀ c ∈ Nat.toDigitsCore 10 fuel n acc, isdigit c = true) ∧
    Nat.toDigitsCore 10 fuel n acc ≠ [] ∧
    digitsValue (Nat.toDigitsCore 10 fuel n acc) =
      n * 10 ^ acc.length + digitsValue acc := by
  intro fuel
  induction fuel with
  | zero => intro n acc h; omega
  | succ fuel ih =>
    intro n acc hlt hacc
    obtain ⟨hd, hv⟩ := digitChar_spec (n % 10) (Nat.mod_lt _ (by decide))
    have hacc2 : ∀ c ∈ Nat.digitChar (n % 10) :: acc, isdigit c = true := by
      intro c hc
      rcases List.mem_cons.mp hc with h | h
      · rw [h]; exact hd
      · exact hacc c h
    have hval : digitsValue (Nat.digitChar (n % 10) :: acc) =
        n % 10 * 10 ^ acc.length + digitsValue acc := by
      rw [digitsValue_cons, hv]
    simp only [Nat.toDigitsCore]
    split
    · rename_i h0
      refine ⟨hacc2, List.cons_ne_nil _ _, ?_⟩
      have hn : n % 10 = n := by omega
      rw [hval, hn]
    · rename_i h0
      obtain ⟨h1, h2, h3⟩ := ih (n / 10) (Nat.digitChar (n % 10) :: acc) (by omega) hacc2
      refine ⟨h1, h2, ?_⟩
      rw [h3, hval, List.length_cons, pow_succ]
      have hn : n * 10 ^ acc.length = (10 * (n / 10) + n % 10) * 10 ^ acc.length := by
        rw [Nat.div_add_mod]
      rw [hn]
      ring

/-- The text of `to_string n` is a non-empty run of digits of value `n`. -/
theorem to_string_spec (n : Nat) :
    to_string n ≠ [] ∧ (∀ c ∈ to_string n, isdigit c = true) ∧
    digitsValue (to_string n) = n := by
  obtain ⟨h1, h2, h3⟩ := toDigitsCore_spec (n + 1) n [] (by omega) (by simp)
  refine ⟨h2, h1, ?_⟩
  simp only [to_string, Nat.toDigits]
  rw [h3]
  simp [digitsValue]

/-- A digit is neither NUL, nor white space, nor a sign. -/
theorem isdigit_facts (c : Char) (h : isdigit c = true) :
    (c.toNat != 0) = true ∧ isspace c = false ∧ c ≠ '-' ∧ c ≠ '+' := by
  simp only [isdigit, Bool.and_eq_true, decide_eq_true_eq] at h
  refine ⟨?_, ?_, ?_, ?_⟩
  · simp only [bne_iff_ne, ne_eq]; omega
  · simp only [isspace, Bool.or_eq_false_iff, decide_eq_false_iff_not,
      Bool.and_eq_false_iff]
    omega
  · intro hc; rw [hc] at h; revert h; decide
  · intro hc; rw [hc] at h; revert h; decide

/-- On a non-empty run of digits whose value is an `int`, `std::stoi` returns
the value and consumes the whole text. -/
theorem stoi_digits (ds : List Char) (hne : ds ≠ [])
    (hd : ∀ c ∈ ds, isdigit c = true) (hv : (digitsValue ds : Int) ≤ INT_MAX) :
    stoi ds = Except.ok ((digitsValue ds : Int), ds.length) := by
  cases ds with
  | nil => exact absurd rfl hne
  | cons c t =>
    have hc := isdigit_facts c (hd c (List.mem_cons_self _ _))
    have htw : (c :: t).takeWhile isdigit = c :: t :=
      List.takeWhile_eq_self_iff.mpr hd
    have hmin : ¬ ((digitsValue (c :: t) : Int) < INT_MIN) := by
      have : (0 : Int) ≤ (digitsValue (c :: t) : Int) := Int.natCast_nonneg _
      simp only [INT_MIN]; omega
    have hws : (c :: t).takeWhile isspace = [] := by
      rw [List.takeWhile_cons, hc.2.1]; rfl
    have hdw : (c :: t).dropWhile isspace = c :: t := by
      rw [List.dropWhile_cons, hc.2.1]; rfl
    have hsg : takeSign (c :: t) = (false, 0, c :: t) := by
      simp only [takeSign, if_neg hc.2.2.1, if_neg hc.2.2.2]
    simp only [stoi, hws, hdw, hsg, htw]
    simp [hmin, not_lt.mpr hv]

/-- On a non-empty run of digits whose value is an `int`, `ParseInt` returns
the value. -/
theorem ParseInt_digits (ds : List Char) (hne : ds ≠ [])
    (hd : ∀ c ∈ ds, isdigit c = true) (hv : (digitsValue ds : Int) ≤ INT_MAX) :
    ParseInt ds = Except.ok (digitsValue ds : Int) := by
  have hc : c_str ds = ds :=
    List.takeWhile_eq_self_iff.mpr (fun c h => (isdigit_facts c (hd c h)).1)
  simp only [ParseInt, hc, stoi_digits ds hne hd hv, Nat.lt_irrefl, if_false]

/-! ## Property queries -/

/-- A key that is not among the keys of the table is not found. -/
theorem find_eq_none (key : List Char) : ∀ m : List (List Char × Handler),
    key ∉ m.map Prod.fst → find m key = none := by
  intro m
  induction m with
  | nil => intro _; rfl
  | cons p rest ih =>
    intro h
    obtain ⟨k, hdl⟩ := p
    simp only [List.map_cons, List.mem_cons, not_or] at h
    simp only [find]
    rw [if_neg (fun hk => h.1 hk.symm)]
    exact ih h.2

/-- The flag and the value written by `GetIntProperty` do not depend on what
the output held before, except that the output is kept when nothing is found. -/
theorem GetIntProperty_out (self : TitanInternalStats) (q : Slice) (out : Nat) :
    GetIntProperty self q out =
      match GetIntProperty self q 0 with
      | Except.ok (false, _) => Except.ok (false, out)
      | r => r := by
  simp only [GetIntProperty]
  cases find stats_type_string_map (GetPropertyNameAndArg q).1 with
  | none => rfl
  | some p =>
    simp only []
    cases p self (GetPropertyNameAndArg q).2 <;> rfl

/-- Claim C2. For every counter-backed canonical name `N` with its slot `ty`,
every state `s` and every unsigned 64-bit value `V`: if slot `ty` of `s` holds
`V` then `GetIntProperty s N` returns found with value `V`, whatever the other
slots hold. -/
theorem C2_counter_backed_names (s : TitanInternalStats) (N : List Char)
    (ty : StatsType) (V out : Nat) (hN : (N, ty) ∈ counterBackedNames)
    (_hV : V < 2 ^ 64) (hs : s.stats_ ty = V) :
    GetIntProperty s N out = Except.ok (true, V) := by
  subst hs
  simp only [counterBackedNames, List.mem_cons, Prod.mk.injEq, List.mem_singleton,
    List.not_mem_nil, or_false] at hN
  rcases hN with h | h | h | h | h | h | h | h | h | h <;>
    (obtain ⟨h1, h2⟩ := h; subst h1; subst h2; rfl)

/-- Claim C2, at `num-discardable-ratio-le20-file` on the sample entry. -/
theorem C2_counter_backed_names_witness :
    GetIntProperty sampleStats "rocksdb.titandb.num-discardable-ratio-le20-file".toList 0
      = Except.ok (true, 20) :=
  C2_counter_backed_names sampleStats _ StatsType.NUM_DISCARDABLE_RATIO_LE20 20 0
    (by decide) (by decide) rfl

/-- Claim C3. For every query whose name part is not a registered property
name, `GetIntProperty` returns not found and leaves the output as it was. -/
theorem C3_unknown_name (s : TitanInternalStats) (q : Slice) (out : Nat)
    (h : (GetPropertyNameAndArg q).1 ∉ registeredNames) :
    GetIntProperty s q out = Except.ok (false, out) := by
  simp only [GetIntProperty, find_eq_none _ stats_type_string_map h]

/-- Claim C3, at `unknown-name`; the table has eleven names. -/
theorem C3_unknown_name_witness :
    registeredNames.length = 11 ∧
    GetIntProperty sampleStats "unknown-name".toList 42 = Except.ok (false, 42) :=
  ⟨by decide, C3_unknown_name sampleStats "unknown-name".toList 42 (by decide)⟩

/-- Claim C4. For every query `q`, `GetStringProperty q` reports found exactly
when `GetIntProperty q` does (and throws exactly when it does); when found,
its text is `to_string` of the value `GetIntProperty q` returns, which is a
non-empty run of decimal digits whose value is that number; when not found,
the output text is kept. -/
theorem C4_string_property (s : TitanInternalStats) (q : Slice) (out : Nat)
    (text : List Char) :
    GetStringProperty s q text =
      (match GetIntProperty s q out with
       | Except.ok (true, v) => Except.ok (true, to_string v)
       | Except.ok (false, _) => Except.ok (false, text)
       | Except.error e => Except.error e) ∧
    (∀ v : Nat, to_string v ≠ [] ∧ (∀ c ∈ to_string v, isdigit c = true) ∧
      digitsValue (to_string v) = v) := by
  refine ⟨?_, to_string_spec⟩
  rw [GetIntProperty_out s q out]
  simp only [GetStringProperty]
  cases GetIntProperty s q 0 with
  | error e => rfl
  | ok r =>
    obtain ⟨b, v⟩ := r
    cases b <;> rfl

/-- Claim C5. For every level `L` that fits in an `int`, `GetIntProperty` on
the registered prefix followed by the decimal digits of `L` returns found with
the count the blob storage returns for level `L`, converted to `uint64_t`; a
count that is not negative and below `2 ^ 64` is returned as it is. -/
theorem C5_num_blob_files_at_level (s : TitanInternalStats) (L out : Nat)
    (hL : (L : Int) ≤ INT_MAX) :
    GetIntProperty s (kNumBlobFilesAtLevelPrefix ++ to_string L) out =
      Except.ok (true, toUInt64 (s.blob_storage_.NumBlobFilesAtLevel L)) ∧
    (0 ≤ s.blob_storage_.NumBlobFilesAtLevel L →
      s.blob_storage_.NumBlobFilesAtLevel L < 2 ^ 64 →
      (toUInt64 (s.blob_storage_.NumBlobFilesAtLevel L) : Int) =
        s.blob_storage_.NumBlobFilesAtLevel L) := by
  obtain ⟨hne, hd, hv⟩ := to_string_spec L
  constructor
  · have hsplit := GetPropertyNameAndArg_append kNumBlobFilesAtLevelPrefix (to_string L)
      (Or.inr ⟨'l', by decide, by decide⟩) hd
    have hfind : find stats_type_string_map kNumBlobFilesAtLevelPrefix =
        some HandleNumBlobFilesAtLevel := rfl
    have hparse := ParseInt_digits (to_string L) hne hd (by rw [hv]; exact hL)
    rw [hv] at hparse
    simp only [GetIntProperty, hsplit, hfind, HandleNumBlobFilesAtLevel, hparse]
  · intro h0 h1
    simp only [toUInt64]
    rw [Int.emod_eq_of_lt h0 h1, Int.toNat_of_nonneg h0]

/-- Claim C5, with a blob storage that returns 2 for level 0 and 5 for
level 1. -/
theorem C5_num_blob_files_at_level_witness :
    GetIntProperty (make_shared mockBlobStorage)
      "rocksdb.titandb.num-blob-files-at-level0".toList 0 = Except.ok (true, 2) ∧
    GetIntProperty (make_shared mockBlobStorage)
      "rocksdb.titandb.num-blob-files-at-level1".toList 0 = Except.ok (true, 5) :=
  ⟨(C5_num_blob_files_at_level (make_shared mockBlobStorage) 0 0 (by decide)).1,
   (C5_num_blob_files_at_level (make_shared mockBlobStorage) 1 0 (by decide)).1⟩

/-- Claim C10, at its failing inputs. The level-indexed property with no
trailing digits makes `GetIntProperty` throw `invalid_argument`, and with the
digits of `2 ^ 31` it throws `out_of_range`: no found flag is returned. -/
theorem C10_level_query_throws (s : TitanInternalStats) (out : Nat) :
    GetIntProperty s "rocksdb.titandb.num-blob-files-at-level".toList out =
      Except.error Exn.invalid_argument ∧
    GetIntProperty s "rocksdb.titandb.num-blob-files-at-level2147483648".toList out =
      Except.error Exn.out_of_range :=
  ⟨rfl, rfl⟩

/-! ## The consume report -/

/-- Claim C6. For every operation type `op` and every field `f` the consume
report reads: of two consecutive calls of `DumpAndResetInternalOpStats`, the
first reads the value the field held, the second reads 0; the field holds 0
after the first call. -/
theorem C6_consume_twice (s : TitanInternalStats) (op : InternalOpType)
    (f : InternalOpStatsType) (hf : f ∈ consumeFields) :
    consumeRead (DumpAndResetInternalOpStats s []).2 op f =
      some (s.internal_op_stats_ op f : Int) ∧
    consumeRead
      (DumpAndResetInternalOpStats (DumpAndResetInternalOpStats s []).1 []).2 op f =
      some 0 ∧
    (DumpAndResetInternalOpStats s []).1.internal_op_stats_ op f = 0 := by
  simp only [consumeFields, List.mem_cons, List.mem_singleton, List.not_mem_nil,
    or_false] at hf
  rcases hf with h | h | h | h | h | h | h | h | h <;> subst h <;> cases op <;>
    exact ⟨rfl, rfl, rfl⟩

/-- Claim C6, for the GC time spent reading the LSM tree on the sample entry. -/
theorem C6_consume_twice_witness :
    consumeRead (DumpAndResetInternalOpStats sampleStats []).2 InternalOpType.GC
      InternalOpStatsType.GC_READ_LSM_MICROS = some 1500000 ∧
    consumeRead
      (DumpAndResetInternalOpStats (DumpAndResetInternalOpStats sampleStats []).1 []).2
      InternalOpType.GC InternalOpStatsType.GC_READ_LSM_MICROS = some 0 ∧
    (DumpAndResetInternalOpStats sampleStats []).1.internal_op_stats_ InternalOpType.GC
      InternalOpStatsType.GC_READ_LSM_MICROS = 0 :=
  C6_consume_twice sampleStats InternalOpType.GC InternalOpStatsType.GC_READ_LSM_MICROS
    (by decide)

/-! ## The peek report -/

/-- One row of a peek report leaves the object as it was. -/
theorem dumpRow_fst (format : List Char) (acc : TitanInternalStats × LogBuffer)
    (op : InternalOpType) : (dumpRow format acc op).1 = acc.1 := by
  obtain ⟨self, lb⟩ := acc
  cases self with
  | mk st ops bs =>
    simp only [dumpRow]
    congr 1
    exact Function.update_eq_self op ops

/-- The rows of a peek report leave the object as it was. -/
theorem dumpRows_fst (format : List Char) (ops : List InternalOpType) :
    ∀ acc : TitanInternalStats × LogBuffer,
      (ops.foldl (dumpRow format) acc).1 = acc.1 := by
  induction ops with
  | nil => intro acc; rfl
  | cons op rest ih =>
    intro acc
    rw [List.foldl_cons, ih, dumpRow_fst]

/-- Claim C7. The peek report is a pure read: both overloads of
`DumpInternalOpStats` leave the object, and so every field of every operation
type's block, as it was; a second call reports what the first call reported. -/
theorem C7_peek_pure (s : TitanInternalStats) (log_buffer value other : LogBuffer) :
    (DumpInternalOpStats s log_buffer).1 = s ∧
    (DumpInternalOpStatsString s value).1 = s ∧
    (∀ (op : InternalOpType) (f : InternalOpStatsType),
      (DumpInternalOpStats s log_buffer).1.internal_op_stats_ op f =
        s.internal_op_stats_ op f ∧
      (DumpInternalOpStatsString s value).1.internal_op_stats_ op f =
        s.internal_op_stats_ op f) ∧
    (DumpInternalOpStats (DumpInternalOpStats s log_buffer).1 other).2 =
      (DumpInternalOpStats s other).2 ∧
    (DumpInternalOpStatsString (DumpInternalOpStatsString s value).1 other).2 =
      (DumpInternalOpStatsString s other).2 := by
  have h1 : (DumpInternalOpStats s log_buffer).1 = s := by
    simp only [DumpInternalOpStats, dumpRows_fst]
  have h2 : (DumpInternalOpStatsString s value).1 = s := by
    simp only [DumpInternalOpStatsString, dumpRows_fst]
  refine ⟨h1, h2, ?_, ?_, ?_⟩
  · intro op f
    rw [h1, h2]
    exact ⟨rfl, rfl⟩
  · rw [h1]
  · rw [h2]

/-! ## Peek, then consume -/

/-- The peek report (string overload) on `flushRecorded`. -/
theorem peek_cells :
    cell (DumpInternalOpStatsString flushRecorded []).2 InternalOpType.FLUSH 1 =
      some (Arg.int 3) ∧
    cell (DumpInternalOpStatsString flushRecorded []).2 InternalOpType.FLUSH 2 =
      some (Arg.dbl (2 * 1024 ^ 3) GB) :=
  ⟨rfl, rfl⟩

/-- The consume report issued after the peek report on `flushRecorded`. -/
theorem consume_after_peek_cells :
    cell (DumpAndResetInternalOpStats
      (DumpInternalOpStatsString flushRecorded []).1 []).2 InternalOpType.FLUSH 1 =
      some (Arg.u64 3) ∧
    cell (DumpAndResetInternalOpStats
      (DumpInternalOpStatsString flushRecorded []).1 []).2 InternalOpType.FLUSH 2 =
      some (Arg.dbl (2 * 1024 ^ 3) GB) :=
  ⟨rfl, rfl⟩

/-- The second consume report after the peek report on `flushRecorded`. -/
theorem second_consume_cells :
    cell (DumpAndResetInternalOpStats
      (DumpAndResetInternalOpStats
        (DumpInternalOpStatsString flushRecorded []).1 []).1 []).2
      InternalOpType.FLUSH 1 = some (Arg.u64 0) ∧
    cell (DumpAndResetInternalOpStats
      (DumpAndResetInternalOpStats
        (DumpInternalOpStatsString flushRecorded []).1 []).1 []).2
      InternalOpType.FLUSH 2 = some (Arg.dbl 0 GB) :=
  ⟨rfl, rfl⟩

/-- Claim C8 as stated fails: after recording `count = 3` and
`bytesRead = 2 * 1024 ^ 3` for Flush, it is not the case that the peek report
shows 3 and 2.0 and the consume report issued after it shows 0 and 0.0; that
consume report shows COUNT = 3. -/
theorem C8_counterexample :
    ¬ (shownAt (DumpInternalOpStatsString flushRecorded []).2 InternalOpType.FLUSH 1 =
        some 3 ∧
      shownAt (DumpInternalOpStatsString flushRecorded []).2 InternalOpType.FLUSH 2 =
        some 2 ∧
      shownAt (DumpAndResetInternalOpStats
        (DumpInternalOpStatsString flushRecorded []).1 []).2 InternalOpType.FLUSH 1 =
        some 0 ∧
      shownAt (DumpAndResetInternalOpStats
        (DumpInternalOpStatsString flushRecorded []).1 []).2 InternalOpType.FLUSH 2 =
        some 0) := by
  intro h
  have h3 := h.2.2.1
  simp only [shownAt, consume_after_peek_cells.1, Arg.shown] at h3
  norm_num at h3

/-- Claim C8, amended. After recording `count = 3` and
`bytesRead = 2 * 1024 ^ 3` for Flush on a new entry, the peek report shows
COUNT = 3 and READ(GB) = 2.0 in the Flush row; the consume report issued after
it shows the same, COUNT = 3 and READ(GB) = 2.0; the consume report issued
after that one shows COUNT = 0 and READ(GB) = 0.0. -/
theorem C8_peek_then_consume :
    shownAt (DumpInternalOpStatsString flushRecorded []).2 InternalOpType.FLUSH 1 =
      some 3 ∧
    shownAt (DumpInternalOpStatsString flushRecorded []).2 InternalOpType.FLUSH 2 =
      some 2 ∧
    shownAt (DumpAndResetInternalOpStats
      (DumpInternalOpStatsString flushRecorded []).1 []).2 InternalOpType.FLUSH 1 =
      some 3 ∧
    shownAt (DumpAndResetInternalOpStats
      (DumpInternalOpStatsString flushRecorded []).1 []).2 InternalOpType.FLUSH 2 =
      some 2 ∧
    shownAt (DumpAndResetInternalOpStats
      (DumpAndResetInternalOpStats
        (DumpInternalOpStatsString flushRecorded []).1 []).1 []).2
      InternalOpType.FLUSH 1 = some 0 ∧
    shownAt (DumpAndResetInternalOpStats
      (DumpAndResetInternalOpStats
        (DumpInternalOpStatsString flushRecorded []).1 []).1 []).2
      InternalOpType.FLUSH 2 = some 0 := by
  refine ⟨?_, ?_, ?_, ?_, ?_, ?_⟩
  · simp only [shownAt, peek_cells.1, Arg.shown]; norm_num
  · simp only [shownAt, peek_cells.2, Arg.shown, GB]; norm_num
  · simp only [shownAt, consume_after_peek_cells.1, Arg.shown]; norm_num
  · simp only [shownAt, consume_after_peek_cells.2, Arg.shown, GB]; norm_num
  · simp only [shownAt, second_consume_cells.1, Arg.shown]; norm_num
  · simp only [shownAt, second_consume_cells.2, Arg.shown, GB]; norm_num

/-! ## The registry -/

/-- Claim C9 as stated fails: column family 1 is present in `sampleRegistry`
with `LIVE_BLOB_SIZE = 4096`; after `InitializeCF` on it the entry reads 0 and
asks the new blob storage, so the existing entry was not left unchanged. -/
theorem C9_counterexample :
    (sampleRegistry.internal_stats_ 1).isSome = true ∧
    (sampleRegistry.internal_stats_ 1).map
      (fun e => e.stats_ StatsType.LIVE_BLOB_SIZE) = some 4096 ∧
    ((InitializeCF sampleRegistry 1 otherBlobStorage).internal_stats_ 1).map
      (fun e => e.stats_ StatsType.LIVE_BLOB_SIZE) = some 0 ∧
    ((InitializeCF sampleRegistry 1 otherBlobStorage).internal_stats_ 1).map
      (fun e => e.blob_storage_.NumBlobFilesAtLevel 0) = some 9 ∧
    ¬ ((InitializeCF sampleRegistry 1 otherBlobStorage).internal_stats_ 1 =
        sampleRegistry.internal_stats_ 1) := by
  refine ⟨rfl, rfl, rfl, rfl, ?_⟩
  intro h
  have h2 := congrArg (fun o : Option TitanInternalStats =>
    o.map (fun e => e.stats_ StatsType.LIVE_BLOB_SIZE)) h
  have h3 : (some 0 : Option Nat) = some 4096 := h2
  exact absurd h3 (by decide)

/-- Claim C9, amended. For every registry state and every column family id,
present or not, `InitializeCF` stores under that id a newly made entry wired
to the given blob storage, replacing any entry that was there, and leaves the
entries of all other ids as they were. -/
theorem C9_initialize_overwrites (reg : TitanStats) (cf_id : Nat)
    (blob_storage : BlobStorage) :
    (InitializeCF reg cf_id blob_storage).internal_stats_ cf_id =
      some (make_shared blob_storage) ∧
    (∀ other : Nat, other ≠ cf_id →
      (InitializeCF reg cf_id blob_storage).internal_stats_ other =
        reg.internal_stats_ other) := by
  constructor
  · simp only [InitializeCF, Function.update_same]
  · intro other h
    simp only [InitializeCF, Function.update_noteq h]

/-- Claim C9 amended, on `sampleRegistry`: column family 1 gets a new entry
and column family 2 stays absent. -/
theorem C9_initialize_overwrites_witness :
    ((InitializeCF sampleRegistry 1 otherBlobStorage).internal_stats_ 1).map
      (fun e => e.stats_ StatsType.LIVE_BLOB_SIZE) = some 0 ∧
    ((InitializeCF sampleRegistry 1 otherBlobStorage).internal_stats_ 2).isNone = true := by
  have h := C9_initialize_overwrites sampleRegistry 1 otherBlobStorage
  refine ⟨?_, ?_⟩
  · rw [h.1]; rfl
  · rw [h.2 2 (by decide)]; rfl

/-! ## Conversions and values of the report rows -/

/-- Claim C11, evaluated. In the consume report, for every state and every
operation type, the row's format has 11 conversion specifications while 10
values are passed to it (the name and nine numbers), so its last conversion is
fed no value; the nine numeric values do match the nine numeric column titles
of the header. In the peek report, both overloads, the row's format has 17
conversion specifications and 17 values are passed. -/
theorem C11_consume_row_conversions (s : TitanInternalStats) (op : InternalOpType) :
    (∃ row, (DumpAndResetInternalOpStats s []).2.get? (rowIndex op) = some row ∧
      row.format = consumeFormat ∧
      countConversions row.format = 11 ∧ row.args.length = 10 ∧
      (numericArgs row).length = 9) ∧
    numericTitles consumeHeader =
      [ "COUNT".toList, "READ(GB)".toList, "WRITE(GB)".toList, "IO_READ(GB)".toList,
        "IO_WRITE(GB)".toList, "FILE_IN".toList, "FILE_OUT".toList,
        "GC_READ(s)".toList, "GC_UPDATE(s)".toList ] ∧
    (numericTitles consumeHeader).length = 9 ∧
    (∃ row, (DumpInternalOpStats s []).2.get? (rowIndex op) = some row ∧
      countConversions row.format = 17 ∧ row.args.length = 17) ∧
    (∃ row, (DumpInternalOpStatsString s []).2.get? (rowIndex op) = some row ∧
      countConversions row.format = 17 ∧ row.args.length = 17) := by
  refine ⟨?_, by decide, by decide, ?_, ?_⟩
  · cases op <;> exact ⟨_, rfl, rfl, rfl, rfl, rfl⟩
  · cases op <;> exact ⟨_, rfl, rfl, rfl⟩
  · cases op <;> exact ⟨_, rfl, rfl, rfl⟩

end Titan
